import Mathlib

set_option maxRecDepth 8000

/-!
Shallow embedding of the CC2500 hopping-radio driver (src/lib/cc2500.c):
the CRC engine, the hopping-table generator, the two packet builders and
the timer-driven link sequencer, together with proofs of the specified
properties.
-/

/-- NUM_CHANNELS from the driver: the hopping table has 47 entries. -/
def NUM_CHANNELS : Nat := 47

/-- The driver's 256-entry CRC lookup table (CRCTable in cc2500.c),
transcribed value for value. -/
def CRCTable : List Nat := [
  0x0000,0x1189,0x2312,0x329b,0x4624,0x57ad,0x6536,0x74bf,
  0x8c48,0x9dc1,0xaf5a,0xbed3,0xca6c,0xdbe5,0xe97e,0xf8f7,
  0x1081,0x0108,0x3393,0x221a,0x56a5,0x472c,0x75b7,0x643e,
  0x9cc9,0x8d40,0xbfdb,0xae52,0xdaed,0xcb64,0xf9ff,0xe876,
  0x2102,0x308b,0x0210,0x1399,0x6726,0x76af,0x4434,0x55bd,
  0xad4a,0xbcc3,0x8e58,0x9fd1,0xeb6e,0xfae7,0xc87c,0xd9f5,
  0x3183,0x200a,0x1291,0x0318,0x77a7,0x662e,0x54b5,0x453c,
  0xbdcb,0xac42,0x9ed9,0x8f50,0xfbef,0xea66,0xd8fd,0xc974,
  0x4204,0x538d,0x6116,0x709f,0x0420,0x15a9,0x2732,0x36bb,
  0xce4c,0xdfc5,0xed5e,0xfcd7,0x8868,0x99e1,0xab7a,0xbaf3,
  0x5285,0x430c,0x7197,0x601e,0x14a1,0x0528,0x37b3,0x263a,
  0xdecd,0xcf44,0xfddf,0xec56,0x98e9,0x8960,0xbbfb,0xaa72,
  0x6306,0x728f,0x4014,0x519d,0x2522,0x34ab,0x0630,0x17b9,
  0xef4e,0xfec7,0xcc5c,0xddd5,0xa96a,0xb8e3,0x8a78,0x9bf1,
  0x7387,0x620e,0x5095,0x411c,0x35a3,0x242a,0x16b1,0x0738,
  0xffcf,0xee46,0xdcdd,0xcd54,0xb9eb,0xa862,0x9af9,0x8b70,
  0x8408,0x9581,0xa71a,0xb693,0xc22c,0xd3a5,0xe13e,0xf0b7,
  0x0840,0x19c9,0x2b52,0x3adb,0x4e64,0x5fed,0x6d76,0x7cff,
  0x9489,0x8500,0xb79b,0xa612,0xd2ad,0xc324,0xf1bf,0xe036,
  0x18c1,0x0948,0x3bd3,0x2a5a,0x5ee5,0x4f6c,0x7df7,0x6c7e,
  0xa50a,0xb483,0x8618,0x9791,0xe32e,0xf2a7,0xc03c,0xd1b5,
  0x2942,0x38cb,0x0a50,0x1bd9,0x6f66,0x7eef,0x4c74,0x5dfd,
  0xb58b,0xa402,0x9699,0x8710,0xf3af,0xe226,0xd0bd,0xc134,
  0x39c3,0x284a,0x1ad1,0x0b58,0x7fe7,0x6e6e,0x5cf5,0x4d7c,
  0xc60c,0xd785,0xe51e,0xf497,0x8028,0x91a1,0xa33a,0xb2b3,
  0x4a44,0x5bcd,0x6956,0x78df,0x0c60,0x1de9,0x2f72,0x3efb,
  0xd68d,0xc704,0xf59f,0xe416,0x90a9,0x8120,0xb3bb,0xa232,
  0x5ac5,0x4b4c,0x79d7,0x685e,0x1ce1,0x0d68,0x3ff3,0x2e7a,
  0xe70e,0xf687,0xc41c,0xd595,0xa12a,0xb0a3,0x8238,0x93b1,
  0x6b46,0x7acf,0x4854,0x59dd,0x2d62,0x3ceb,0x0e70,0x1ff9,
  0xf78f,0xe606,0xd49d,0xc514,0xb1ab,0xa022,0x92b9,0x8330,
  0x7bc7,0x6a4e,0x58d5,0x495c,0x3de3,0x2c6a,0x1ef1,0x0f78
]

/-- calc_crc from the driver: for each byte,
crc = (crc shifted left 8) xor CRCTable[((crc shifted right 8) xor byte) and 0xFF],
with crc a uint16 (so each assignment truncates mod 2^16). -/
def calc_crc (data : List Nat) : Nat :=
  data.foldl (fun crc b => ((crc * 256) ^^^ CRCTable.getD (((crc / 256) ^^^ b) % 256) 0) % 65536) 0

/-- The spacing-normalization block of setup_hopping_table (the three
sequential fixups under the comment Filter bad tables): add 2 when below 2,
subtract 0xE7 when above 0xE9, add 1 when a multiple of NUM_CHANNELS. -/
def normalize_spacing (channel_spacing : Nat) : Nat :=
  let cs1 := if channel_spacing < 0x02 then channel_spacing + 0x02 else channel_spacing
  let cs2 := if cs1 > 0xE9 then cs1 - 0xE7 else cs1
  if cs2 % NUM_CHANNELS = 0 then cs2 + 1 else cs2

/-- The loop body of setup_hopping_table for slots 1 and up: the running
channel advances by the spacing mod 0xEB each iteration (the running value is
kept un-adjusted), and the stored value is incremented past the reserved
values 0x00, 0x5A, 0xDC.  Returns the list of the n stored values. -/
def hop_fill (spacing : Nat) : Nat → Nat → List Nat
  | 0, _ => []
  | n + 1, channel =>
    let c := (channel + spacing) % 0xEB
    let v := if c = 0x00 ∨ c = 0x5A ∨ c = 0xDC then c + 1 else c
    v :: hop_fill spacing n c

/-- setup_hopping_table from the driver: derives the 47-entry bindHopData
table from the 2-byte transmitter identity bindTxId.  Slot 0 is stored as
id0 and 0x07 directly, with no reserved-value filtering. -/
def setup_hopping_table (id0 id1 : Nat) : List Nat :=
  let channel := id0 &&& 0x07
  let spacing := normalize_spacing (id1 % 256)
  channel :: hop_fill spacing (NUM_CHANNELS - 1) channel

/-- The channel-pair packing in send_normal_packet, three bytes per pair of
uint16 channel values: byte 0 is chan_0 masked to 8 bits, byte 1 is the high
nibble of chan_0 ored with chan_1 shifted left 4 (truncated to a byte on
assignment), byte 2 is chan_1 shifted right 4 (truncated to a byte). -/
def pack_channel_pair (chan_0 chan_1 : Nat) : List Nat :=
  let a := chan_0 % 65536
  let b := chan_1 % 65536
  [a % 256, (((a / 256) % 16) ||| (b * 16)) % 256, (b / 16) % 256]

/-- send_normal_packet from the driver as a pure packet builder: the 30-byte
normal control frame built from the identity, chanskip, channr, rxnum (all
uint8 globals) and the channel_value inputs (uint16).  memset zeroes the
buffer first, so bytes 21 to 27 stay zero; the last two bytes are the CRC of
bytes 3 to 27, high byte first. -/
def send_normal_packet (id0 id1 chanskip channr rxnum : Nat) (cv : Nat → Nat) : List Nat :=
  let body : List Nat :=
    [29, id0 % 256, id1 % 256, 0x02,
     (((chanskip % 256) * 64) ||| (channr % 256)) % 256,
     (chanskip % 256) / 4,
     rxnum % 256, 0, 0]
    ++ pack_channel_pair (cv 0) (cv 1)
    ++ pack_channel_pair (cv 2) (cv 3)
    ++ pack_channel_pair (cv 4) (cv 5)
    ++ pack_channel_pair (cv 6) (cv 7)
    ++ [0, 0, 0, 0, 0, 0, 0]
  let lcrc := calc_crc (body.drop 3)
  body ++ [lcrc / 256, lcrc % 256]

/-- send_bind_packet from the driver as a pure packet builder: the 30-byte
bind frame built from the identity, the bindHopData table and the bind cursor
idx.  Bytes 6 to 10 advertise hop entries idx to idx+4, left zero (from the
memset) when the index reaches past entry 46; the last two bytes are the CRC
of bytes 3 to 27, high byte first. -/
def send_bind_packet (id0 id1 : Nat) (hop : List Nat) (idx : Nat) : List Nat :=
  let body : List Nat :=
    [29, 0x03, 0x01, id0 % 256, id1 % 256, idx % 256,
     if idx + 0 < 47 then hop.getD (idx + 0) 0 % 256 else 0,
     if idx + 1 < 47 then hop.getD (idx + 1) 0 % 256 else 0,
     if idx + 2 < 47 then hop.getD (idx + 2) 0 % 256 else 0,
     if idx + 3 < 47 then hop.getD (idx + 3) 0 % 256 else 0,
     if idx + 4 < 47 then hop.getD (idx + 4) 0 % 256 else 0,
     0x02, 0,
     0, 0, 0, 0, 0, 0, 0, 0, 0, 0, 0, 0, 0, 0, 0]
  let lcrc := calc_crc (body.drop 3)
  body ++ [lcrc / 256, lcrc % 256]

/-- The bind cursor update at the end of send_bind_packet:
idx increases by 5 and has 50 subtracted once it reaches 50. -/
def bind_idx_step (idx : Nat) : Nat :=
  let i := idx + 5
  if 50 ≤ i then i - 50 else i

/-- The three timer callbacks the driver schedules with timer_call_after_ms. -/
inductive Callback
  | bind
  | normal
  | recv
deriving DecidableEq

/-- Link-sequencer state: the queue of pending timer callbacks plus the
driver globals mutated by the callback chain. -/
structure SeqState where
  queue : List Callback
  bindcount : Nat
  channr : Nat
  chanskip : Nat
  idx : Nat
deriving DecidableEq

/-- One sequencer step: pop the pending callback and run its handler.
send_bind_packet increments bindcount, advances the bind cursor and schedules
either another bind frame or, once bindcount exceeds 500, the first normal
frame; send_normal_packet schedules start_receive; start_receive advances
channr by chanskip mod 47 and schedules send_normal_packet.  Each handler
calls timer_call_after_ms exactly once, which the model reflects by appending
exactly one callback to the queue. -/
def seq_step (s : SeqState) : SeqState :=
  match s.queue with
  | [] => s
  | c :: rest =>
    match c with
    | Callback.bind =>
      { s with
        queue := rest ++ (if 500 < s.bindcount + 1 then [Callback.normal] else [Callback.bind]),
        bindcount := s.bindcount + 1,
        idx := bind_idx_step s.idx }
    | Callback.normal => { s with queue := rest ++ [Callback.recv] }
    | Callback.recv =>
      { s with
        queue := rest ++ [Callback.normal],
        channr := (s.channr + s.chanskip) % 47 }

/-- The sequencer state after radio_init_hw (which sets chanskip to 1) and
radio_start_send (which schedules the first send_bind_packet); the remaining
globals are zero-initialized statics. -/
def init_state : SeqState :=
  { queue := [Callback.bind], bindcount := 0, channr := 0, chanskip := 1, idx := 0 }

/-- Modelled from the spec: one bit of the reflected-polynomial bitwise
CRC-16 — shift the register right one bit and xor in 0x8408 when the bit
shifted out was set. -/
def crc16_bitwise_step (crc : Nat) : Nat :=
  if crc % 2 = 1 then (crc / 2) ^^^ 0x8408 else crc / 2

/-- Modelled from the spec: run one byte through eight reflected bitwise
CRC-16 steps from an initial register value of 0, so the register starts as
the byte itself. -/
def crc16_bitwise_ref (b : Nat) : Nat := crc16_bitwise_step^[8] b

/-- Modelled from the spec: the inverse of the documented 12-bit channel-pair
bit layout — a is byte 0 plus the low nibble of byte 1 times 256, b is the
high nibble of byte 1 plus byte 2 times 16. -/
def unpack_channel_pair (bytes : List Nat) : Nat × Nat :=
  (bytes.getD 0 0 + (bytes.getD 1 0 % 16) * 256,
   bytes.getD 1 0 / 16 + bytes.getD 2 0 * 16)

/-! Helper lemmas. -/

theorem lor_mod_two_pow_8 (p q : Nat) : (p ||| q) % 256 = (p % 256) ||| (q % 256) := by
  have h : (256 : Nat) = 2 ^ 8 := by norm_num
  rw [h]
  apply Nat.eq_of_testBit_eq
  intro i
  simp only [Nat.testBit_mod_two_pow, Nat.testBit_lor, Bool.and_or_distrib_left]

theorem lor_nibbles : ∀ x < 16, ∀ y < 16, x ||| (y * 16) = x + y * 16 := by decide

theorem hop_fill_length (spacing : Nat) :
    ∀ n channel, (hop_fill spacing n channel).length = n := by
  intro n
  induction n with
  | zero => intro channel; rfl
  | succ n ih => intro channel; simp [hop_fill, ih]

theorem hop_fill_mem_ok (spacing : Nat) : ∀ n channel, ∀ v ∈ hop_fill spacing n channel,
    v < 235 ∧ v ≠ 0 ∧ v ≠ 90 ∧ v ≠ 220 := by
  intro n
  induction n with
  | zero => intro channel v hv; simp [hop_fill] at hv
  | succ n ih =>
    intro channel v hv
    simp only [hop_fill, List.mem_cons] at hv
    have hc : (channel + spacing) % 235 < 235 := Nat.mod_lt _ (by norm_num)
    rcases hv with h | h
    · by_cases hd : (channel + spacing) % 235 = 0 ∨ (channel + spacing) % 235 = 90 ∨
          (channel + spacing) % 235 = 220
      · rw [if_pos hd] at h; omega
      · rw [if_neg hd] at h; omega
    · exact ih _ v h

/-! Claim theorems. -/

/-- Claim C1, counterexample: for the identity pair (0, 20) the generator
stores slot 0 as 0 and 0x07 = 0x00, one of the reserved dead values, so the
claim as stated fails. -/
theorem c1_counterexample :
    0x00 ∈ setup_hopping_table 0 20 ∧ (setup_hopping_table 0 20).getD 0 1 = 0x00 := by
  decide

/-- Claim C1, amended: for every 2-byte identity the 47-entry table has every
entry below 0xEB, and every entry in slots 1 to 46 avoids the reserved values
0x00, 0x5A, 0xDC; slot 0 is taken directly from id0 and 0x07 with no
reserved-value filtering, so it equals 0x00 exactly when id0 is a multiple
of 8. -/
theorem c1_hopping_table_amended : ∀ id0 id1 : Nat,
    (setup_hopping_table id0 id1).length = 47
    ∧ ((setup_hopping_table id0 id1).all fun v => decide (v < 0xEB)) = true
    ∧ (((setup_hopping_table id0 id1).drop 1).all fun v =>
        decide (v ≠ 0x00 ∧ v ≠ 0x5A ∧ v ≠ 0xDC)) = true
    ∧ (setup_hopping_table id0 id1).getD 0 0 = id0 &&& 0x07 := by
  intro id0 id1
  refine ⟨?_, ?_, ?_, rfl⟩
  · simp [setup_hopping_table, hop_fill_length, NUM_CHANNELS]
  · rw [List.all_eq_true]
    intro v hv
    simp only [setup_hopping_table, List.mem_cons] at hv
    simp only [decide_eq_true_eq]
    rcases hv with h | h
    · subst h; exact lt_of_le_of_lt Nat.and_le_right (by norm_num)
    · exact (hop_fill_mem_ok _ _ _ v h).1
  · rw [List.all_eq_true]
    intro v hv
    simp only [setup_hopping_table, List.drop_succ_cons, List.drop_zero] at hv
    simp only [decide_eq_true_eq]
    have := hop_fill_mem_ok _ _ _ v hv
    exact ⟨this.2.1, this.2.2.1, this.2.2.2⟩

/-- Claim C3, counterexample: for the channel pair a = 0xABC, b = 0x123 the
packed middle byte is 0x3A (high nibble of a in the low nibble, low nibble of
b in the high nibble), not 0xA1 as the claim states. -/
theorem c3_counterexample : pack_channel_pair 0xABC 0x123 ≠ [0xBC, 0xA1, 0x12] := by
  decide

/-- Claim C3, amended: for the channel pair a = 0xABC, b = 0x123 the 3-byte
packed encoding produced by the normal-frame channel packer equals
0xBC, 0x3A, 0x12. -/
theorem c3_packed_encoding : pack_channel_pair 0xABC 0x123 = [0xBC, 0x3A, 0x12] := by
  decide

/-- Claim C4: unpacking the 3-byte encoding with the inverse of the
documented layout recovers every pair of 12-bit channel values exactly, and
for arbitrary inputs the encoding only depends on the low 12 bits of each
value, i.e. out-of-range values are silently truncated, not rejected. -/
theorem c4_pack_roundtrip : ∀ a b : Nat,
    (a < 4096 → b < 4096 → unpack_channel_pair (pack_channel_pair a b) = (a, b))
    ∧ pack_channel_pair a b = pack_channel_pair (a % 4096) (b % 4096) := by
  intro a b
  constructor
  · intro ha hb
    have ha16 : a % 65536 = a := Nat.mod_eq_of_lt (by omega)
    have hb16 : b % 65536 = b := Nat.mod_eq_of_lt (by omega)
    have hb1 : ((a / 256 % 16) ||| (b * 16)) % 256 = a / 256 % 16 + b % 16 * 16 := by
      rw [lor_mod_two_pow_8]
      have h1 : a / 256 % 16 % 256 = a / 256 % 16 := Nat.mod_eq_of_lt (by omega)
      have h2 : b * 16 % 256 = b % 16 * 16 := by omega
      rw [h1, h2, lor_nibbles (a / 256 % 16) (by omega) (b % 16) (by omega)]
    simp only [pack_channel_pair, unpack_channel_pair, ha16, hb16, hb1,
      List.getD_cons_zero, List.getD_cons_succ, Prod.mk.injEq]
    constructor <;> omega
  · simp only [pack_channel_pair, List.cons.injEq, and_true]
    refine ⟨by omega, ?_, by omega⟩
    rw [lor_mod_two_pow_8, lor_mod_two_pow_8]
    have e1 : a % 65536 / 256 % 16 % 256 = a % 4096 % 65536 / 256 % 16 % 256 := by omega
    have e2 : b % 65536 * 16 % 256 = b % 4096 % 65536 * 16 % 256 := by omega
    rw [e1, e2]

/-- Claim C4, witness instantiation. -/
theorem c4_pack_roundtrip_witness :
    unpack_channel_pair (pack_channel_pair 0xABC 0x123) = (0xABC, 0x123)
    ∧ pack_channel_pair 70000 70000 = pack_channel_pair (70000 % 4096) (70000 % 4096) :=
  ⟨(c4_pack_roundtrip 0xABC 0x123).1 (by decide) (by decide),
   (c4_pack_roundtrip 70000 70000).2⟩

/-- Claim C5: for every initial spacing byte 0 to 255 the normalized channel
spacing used for hopping-table generation lies in the interval from 2 to 0xE9
and is never a multiple of 47. -/
theorem c5_spacing_normalization :
    ((List.range 256).all fun s =>
      decide (2 ≤ normalize_spacing s ∧ normalize_spacing s ≤ 0xE9
        ∧ normalize_spacing s % 47 ≠ 0)) = true := by
  decide

/-- Claim C6: the driver's 256-entry CRC lookup table reproduces, bit for
bit, the table generated by running each byte value through eight steps of
the reflected-polynomial (0x8408) bitwise CRC-16 algorithm from an initial
value of 0. -/
theorem c6_crc_table_matches_ref :
    CRCTable.length = 256
    ∧ ((List.range 256).all fun i => decide (CRCTable.getD i 0 = crc16_bitwise_ref i)) = true := by
  exact ⟨rfl, by decide⟩

/-- Claim C2: every emitted frame, bind or normal, is exactly 30 bytes long,
and its last 2 bytes are the big-endian CRC-16 (per the driver's calc_crc) of
bytes 3 through 27 inclusive, i.e. bytes 3 through len-3 for len = 30. -/
theorem c2_frame_shape : ∀ (id0 id1 chanskip channr rxnum : Nat) (cv : Nat → Nat)
    (hop : List Nat) (idx : Nat),
    (send_normal_packet id0 id1 chanskip channr rxnum cv).length = 30
    ∧ (send_normal_packet id0 id1 chanskip channr rxnum cv).drop 28 =
        [calc_crc (((send_normal_packet id0 id1 chanskip channr rxnum cv).take 28).drop 3) / 256,
         calc_crc (((send_normal_packet id0 id1 chanskip channr rxnum cv).take 28).drop 3) % 256]
    ∧ (send_bind_packet id0 id1 hop idx).length = 30
    ∧ (send_bind_packet id0 id1 hop idx).drop 28 =
        [calc_crc (((send_bind_packet id0 id1 hop idx).take 28).drop 3) / 256,
         calc_crc (((send_bind_packet id0 id1 hop idx).take 28).drop 3) % 256] :=
  fun _ _ _ _ _ _ _ _ => ⟨rfl, rfl, rfl, rfl⟩

/-- Claim C7: starting from bind cursor 0, n cursor updates leave the cursor
at 5n mod 50 (so 10 successive builds produce 0, 5, ..., 45 and the cursor
then wraps back to 0), and every bind-frame hop-table payload byte whose
table index reaches 47 or beyond is zero. -/
theorem c7_bind_cursor : (∀ n : Nat, bind_idx_step^[n] 0 = 5 * n % 50)
    ∧ (∀ (id0 id1 : Nat) (hop : List Nat) (idx i : Nat), i < 5 → 47 ≤ idx + i →
        (send_bind_packet id0 id1 hop idx).getD (6 + i) 9 = 0) := by
  constructor
  · intro n
    induction n with
    | zero => rfl
    | succ n ih =>
      rw [Function.iterate_succ_apply', ih]
      simp only [bind_idx_step]
      split <;> omega
  · intro id0 id1 hop idx i hi hge
    interval_cases i
    · show (if idx + 0 < 47 then hop.getD (idx + 0) 0 % 256 else 0) = 0
      rw [if_neg (by omega)]
    · show (if idx + 1 < 47 then hop.getD (idx + 1) 0 % 256 else 0) = 0
      rw [if_neg (by omega)]
    · show (if idx + 2 < 47 then hop.getD (idx + 2) 0 % 256 else 0) = 0
      rw [if_neg (by omega)]
    · show (if idx + 3 < 47 then hop.getD (idx + 3) 0 % 256 else 0) = 0
      rw [if_neg (by omega)]
    · show (if idx + 4 < 47 then hop.getD (idx + 4) 0 % 256 else 0) = 0
      rw [if_neg (by omega)]

/-- Claim C7, witness instantiation. -/
theorem c7_bind_cursor_witness :
    bind_idx_step^[10] 0 = 5 * 10 % 50
    ∧ (send_bind_packet 15 20 [] 45).getD (6 + 2) 9 = 0 :=
  ⟨c7_bind_cursor.1 10, c7_bind_cursor.2 15 20 [] 45 2 (by decide) (by decide)⟩

theorem seq_step_queue_normal (s : SeqState) (h : s.queue = [Callback.normal]) :
    (seq_step s).queue = [Callback.recv] := by
  simp [seq_step, h]

theorem seq_step_queue_recv (s : SeqState) (h : s.queue = [Callback.recv]) :
    (seq_step s).queue = [Callback.normal] := by
  simp [seq_step, h]

/-- Claim C8: every sequencer step consumes the single pending callback and
schedules exactly one new one; a bind step whose incremented bind counter
exceeds 500 schedules the normal-frame transmit instead of another bind
frame; and from a pending normal-frame transmit the sequencer alternates
strictly between the transmit step and the receive-window step forever. -/
theorem c8_sequencer : ∀ s : SeqState,
    (s.queue.length = 1 → (seq_step s).queue.length = 1)
    ∧ (s.queue = [Callback.bind] → 500 < s.bindcount + 1 →
        (seq_step s).queue = [Callback.normal])
    ∧ (s.queue = [Callback.normal] → ∀ n : Nat,
        (seq_step^[2 * n] s).queue = [Callback.normal]
        ∧ (seq_step^[2 * n + 1] s).queue = [Callback.recv]) := by
  intro s
  refine ⟨?_, ?_, ?_⟩
  · intro h
    rcases hq : s.queue with _ | ⟨c, rest⟩
    · rw [hq] at h; simp at h
    · rw [hq] at h
      simp only [List.length_cons] at h
      have hr : rest = [] := List.length_eq_zero.mp (by omega)
      subst hr
      cases c
      · simp only [seq_step, hq]
        split <;> simp
      · simp [seq_step, hq]
      · simp [seq_step, hq]
  · intro hq hb
    simp [seq_step, hq, if_pos hb]
  · intro hq n
    induction n with
    | zero =>
      refine ⟨by simpa using hq, ?_⟩
      simpa using seq_step_queue_normal s hq
    | succ n ih =>
      have h1 : 2 * (n + 1) = 2 * n + 1 + 1 := by ring
      have h2 : 2 * (n + 1) + 1 = 2 * n + 1 + 1 + 1 := by ring
      constructor
      · rw [h1, Function.iterate_succ_apply']
        exact seq_step_queue_recv _ ih.2
      · rw [h2, Function.iterate_succ_apply', Function.iterate_succ_apply']
        exact seq_step_queue_normal _ (seq_step_queue_recv _ ih.2)

/-- Claim C8, witness instantiation. -/
theorem c8_sequencer_witness :
    (seq_step (SeqState.mk [Callback.recv] 0 5 1 0)).queue.length = 1
    ∧ (seq_step (SeqState.mk [Callback.bind] 500 0 1 45)).queue = [Callback.normal]
    ∧ ((seq_step^[2 * 1] (SeqState.mk [Callback.normal] 501 0 1 0)).queue = [Callback.normal]
        ∧ (seq_step^[2 * 1 + 1] (SeqState.mk [Callback.normal] 501 0 1 0)).queue
            = [Callback.recv]) :=
  ⟨(c8_sequencer (SeqState.mk [Callback.recv] 0 5 1 0)).1 rfl,
   (c8_sequencer (SeqState.mk [Callback.bind] 500 0 1 45)).2.1 rfl (by decide),
   (c8_sequencer (SeqState.mk [Callback.normal] 501 0 1 0)).2.2 rfl 1⟩

theorem seq_step_channr_lt (s : SeqState) (h : s.channr < 47) : (seq_step s).channr < 47 := by
  rcases hq : s.queue with _ | ⟨c, rest⟩
  · simpa [seq_step, hq] using h
  · cases c
    · simpa [seq_step, hq] using h
    · simpa [seq_step, hq] using h
    · simp [seq_step, hq]
      omega

/-- Claim C9: the hop index starts at 0, every receive-window step updates it
to (channr + chanskip) mod 47, it stays below 47 in every reachable sequencer
state, and hence stays a valid index into the 47-entry hopping table. -/
theorem c9_hop_index_invariant :
    (∀ n : Nat, (seq_step^[n] init_state).channr < 47)
    ∧ (∀ s : SeqState, s.channr < 47 → (seq_step s).channr < 47)
    ∧ (∀ s : SeqState, s.queue = [Callback.recv] →
        (seq_step s).channr = (s.channr + s.chanskip) % 47)
    ∧ init_state.channr = 0
    ∧ (∀ id0 id1 n : Nat,
        (seq_step^[n] init_state).channr < (setup_hopping_table id0 id1).length) := by
  have hiter : ∀ n : Nat, (seq_step^[n] init_state).channr < 47 := by
    intro n
    induction n with
    | zero =>
      show init_state.channr < 47
      decide
    | succ n ih =>
      rw [Function.iterate_succ_apply']
      exact seq_step_channr_lt _ ih
  refine ⟨hiter, seq_step_channr_lt, ?_, rfl, ?_⟩
  · intro s hq
    simp [seq_step, hq]
  · intro id0 id1 n
    have hlen : (setup_hopping_table id0 id1).length = 47 := by
      simp [setup_hopping_table, hop_fill_length, NUM_CHANNELS]
    rw [hlen]
    exact hiter n

/-- Claim C9, witness instantiation. -/
theorem c9_hop_index_invariant_witness :
    (seq_step (SeqState.mk [] 0 46 1 0)).channr < 47
    ∧ (seq_step (SeqState.mk [Callback.recv] 0 10 1 0)).channr = (10 + 1) % 47 :=
  ⟨c9_hop_index_invariant.2.1 (SeqState.mk [] 0 46 1 0) (by decide),
   c9_hop_index_invariant.2.2.1 (SeqState.mk [Callback.recv] 0 10 1 0) rfl⟩

theorem perm_hop_cycle_lt : ∀ c < 47,
    List.Perm ((List.range 47).map fun k => (c + k) % 47) (List.range 47) := by
  decide

/-- Claim C10: no sequencer step modifies chanskip, which bring-up sets to 1,
so every receive-window step advances the hop index by exactly 1 mod 47, and
47 consecutive hop-index values starting anywhere visit all 47 hopping-table
slots exactly once each. -/
theorem c10_chanskip_constant :
    (∀ s : SeqState, (seq_step s).chanskip = s.chanskip)
    ∧ init_state.chanskip = 1
    ∧ (∀ n : Nat, (seq_step^[n] init_state).chanskip = 1)
    ∧ (∀ s : SeqState, s.queue = [Callback.recv] → s.chanskip = 1 →
        (seq_step s).channr = (s.channr + 1) % 47)
    ∧ (∀ c : Nat, List.Perm ((List.range 47).map fun k => (c + k) % 47) (List.range 47)) := by
  have hconst : ∀ s : SeqState, (seq_step s).chanskip = s.chanskip := by
    intro s
    rcases hq : s.queue with _ | ⟨c, rest⟩
    · simp [seq_step, hq]
    · cases c <;> simp [seq_step, hq]
  refine ⟨hconst, rfl, ?_, ?_, ?_⟩
  · intro n
    induction n with
    | zero => rfl
    | succ n ih =>
      rw [Function.iterate_succ_apply', hconst]
      exact ih
  · intro s hq hsk
    simp [seq_step, hq, hsk]
  · intro c
    have hmap : ((List.range 47).map fun k => (c + k) % 47)
        = (List.range 47).map fun k => (c % 47 + k) % 47 := by
      apply List.map_congr_left
      intro k hk
      omega
    rw [hmap]
    exact perm_hop_cycle_lt (c % 47) (Nat.mod_lt _ (by norm_num))

/-- Claim C10, witness instantiation. -/
theorem c10_chanskip_constant_witness :
    (seq_step (SeqState.mk [Callback.recv] 501 46 1 0)).channr = (46 + 1) % 47 :=
  c10_chanskip_constant.2.2.2.1 (SeqState.mk [Callback.recv] 501 46 1 0) rfl rfl
